import Mathlib

/-!
Verification development for the slogx-slack repository: a shallow embedding of
the Slack message formatter (`formatter.go`) and the Slack log handler
(`handler.go`), together with theorems settling the specification claims.

Conventions of the embedding:
* Go `(value, error)` pairs are modelled as `Option α × Option Err` when the Go
  code can return either component as nil, and as `Except Err α` for internal
  helpers that mirror early-return loops.
* `context.Context` threading carries no information relevant to any claim and
  is dropped from the hook signatures.
* External collaborator types (Slack block kinds, HTTP client, the slogx
  attribute helpers) are modelled from their documented contracts; each such
  definition carries a doc comment saying so.
-/

namespace SlogxSlack

/-- Severity level of a record (the ordered severity scale of the logging
facility); `slogx.Level` is an integer-valued level. -/
abbrev Level := Int

/-- Errors returned by renderer hooks and by the handler, modelled by their
message text. -/
abbrev Err := String

/-- Timestamps, modelled abstractly as an integer instant. -/
abbrev STime := Int

/-- The outcome of a value's text-marshaling capability
(`encoding.TextMarshaler.MarshalText`): either the marshaled text or an
error. -/
inductive MarshalOutcome where
  | ok (s : String)
  | err (e : Err)
deriving DecidableEq

mutual
/-- A structured attribute value (`slog.Value`): a tagged union over the value
kinds the formatter distinguishes, mutually defined with an ordered attribute
sequence so that the nested tree is a genuinely inductive structure.
Floating-point payloads are carried as their rendered text (no claim depends
on float arithmetic); an opaque/any value carries the outcome of its optional
text-marshaling capability plus its debug rendering. -/
inductive SValue where
  | bool (b : Bool)
  | str (s : String)
  | int (i : Int)
  | uint (n : Nat)
  | float (text : String)
  | duration (d : Int)
  | time (t : Int)
  | group (attrs : SAttrs)
  | any (marshal : Option MarshalOutcome) (debug : String)
deriving DecidableEq
/-- An ordered sequence of attributes as stored inside a group value. -/
inductive SAttrs where
  | nil
  | cons (key : String) (value : SValue) (rest : SAttrs)
deriving DecidableEq
end

/-- An attribute (`slog.Attr`): a key paired with a value. -/
abbrev SAttr := String × SValue

/-- Build a group-internal attribute sequence from a list of attributes. -/
def SAttrs.ofList : List SAttr → SAttrs
  | [] => .nil
  | (k, v) :: rest => .cons k v (SAttrs.ofList rest)

/-- The number of attributes directly inside a group. -/
def SAttrs.size : SAttrs → Nat
  | .nil => 0
  | .cons _ _ rest => rest.size + 1

/-- Whether a value is of group kind. -/
def SValue.isGroup : SValue → Bool
  | .group _ => true
  | _ => false

/-- Join a dotted-path key with a leaf key using the `.` separator. -/
def joinKey (pre k : String) : String :=
  if pre = "" then k else pre ++ "." ++ k

/-- Modelled from the spec: the recursive core of the flattening helper of the
logging facility (`slogx.FlattenAttrs` is external to this repository):
"recursively walks nested groups, emitting a leaf entry for every non-group
value with its key formed by joining ancestor group names and the leaf key
with a separator (`.`). Group values themselves never appear in the output; an
empty group contributes nothing." -/
def flattenS (pre : String) : SAttrs → List SAttr
  | .nil => []
  | .cons k (SValue.group g) rest => flattenS (joinKey pre k) g ++ flattenS pre rest
  | .cons k v rest => (joinKey pre k, v) :: flattenS pre rest

/-- Flatten a top-level attribute list under a given path, delegating group
contents to `flattenS`. -/
def flattenWith (pre : String) : List SAttr → List SAttr
  | [] => []
  | (k, SValue.group g) :: rest => flattenS (joinKey pre k) g ++ flattenWith pre rest
  | (k, v) :: rest => (joinKey pre k, v) :: flattenWith pre rest

/-- Flatten a list of attributes starting from the empty path. -/
def flattenAttrs (attrs : List SAttr) : List SAttr :=
  flattenWith "" attrs

/-- Stable insertion of an attribute into a key-sorted list: the new element
goes before the first strictly greater key, hence after equal keys already
present when used by `sortAttrs` below. -/
def insertAttr (a : SAttr) : List SAttr → List SAttr
  | [] => [a]
  | b :: rest => if b.1 < a.1 then b :: insertAttr a rest else a :: b :: rest

/-- Modelled from the spec: the sorting helper of the logging facility
(`slogx.SortAttrs` is external to this repository): "stable lexicographic sort
on key". -/
def sortAttrs : List SAttr → List SAttr
  | [] => []
  | a :: rest => insertAttr a (sortAttrs rest)

/-- Modelled from the spec: an element of a Slack context block (the
`slack.MixedElement` vocabulary of the destination messaging surface): an
image element or a markdown text object. -/
inductive MixedElement where
  | image (imageURL : String) (altText : String)
  | text (text : String)
deriving DecidableEq

/-- Modelled from the spec: a Slack message block — divider, context block, or
section (body) block. -/
inductive Block where
  | divider
  | context (elements : List MixedElement)
  | sectionBlock (text : String)
deriving DecidableEq

/-- Modelled from the spec: a rendered webhook message, an ordered sequence of
typed blocks. -/
structure WebhookMessage where
  blocks : List Block
deriving DecidableEq

/-- A compiled ignore pattern, modelled by its matching function
(`regexp.Regexp.MatchString`). -/
abbrev Pattern := String → Bool

/-- A middleware attribute formatter (`formatter.FormatAttrFn`): receives the
level, the group-path part and leaf part of the flattened key, and the resolved
value; returns a (possibly renamed) key and transformed value, or an error. -/
abbrev AttrFn := Level → String → String → SValue → Except Err (String × SValue)

/-- A level renderer hook (`formatter.FormatLevelValueFn`). -/
abbrev LevelFn := Level → Except Err String

/-- A message renderer hook (`formatter.FormatMessageValueFn`). -/
abbrev MessageFn := Level → String → Except Err String

/-- A source/call-site renderer hook (`formatter.FormatSourceValueFn`). -/
abbrev SourceFn := Level → Nat → Except Err String

/-- A timestamp renderer hook (`formatter.FormatTimeValueFn`). -/
abbrev TimeFn := Level → STime → Except Err String

/-- Default text prepended to the source location
(`SlackMessageFormatterSourcePrefix`). -/
def slackMessageFormatterSourcePfx : String := "Source:\t\t\t"

/-- Default text prepended to the record time
(`SlackMessageFormatterTimePrefix`). -/
def slackMessageFormatterTimePfx : String := "Occurred at:\t"

/-- Options for the Slack message formatter (`SlackMessageFormatterOptions`).
The Go field names `TimePrefix`/`SourcePrefix` are rendered here as
`timePfx`/`sourcePfx`. -/
structure SlackMessageFormatterOptions where
  applicationIconURL : String
  applicationName : String
  attrFormatter : Option AttrFn
  ignoreAttrs : List String
  includeAttrs : Bool
  includeSource : Bool
  levelFormatter : Option LevelFn
  messageFormatter : Option MessageFn
  sortAttrsOpt : Bool
  sourcePfx : String
  sourceFormatter : Option SourceFn
  specificAttrFormatter : List (String × AttrFn)
  timePfx : String
  timeFormatter : Option TimeFn

/-- slogx level constants, modelled from the external slogx level scale (the
exact numeric values are not observable through any claim; they only need to
be distinct and ordered). -/
def levelTrace : Level := -8

/-- slogx `LevelDebug`. -/
def levelDebug : Level := -4

/-- slogx `LevelInfo`. -/
def levelInfo : Level := 0

/-- slogx `LevelNotice`. -/
def levelNotice : Level := 2

/-- slogx `LevelWarn`. -/
def levelWarn : Level := 4

/-- slogx `LevelError`. -/
def levelError : Level := 8

/-- slogx `LevelFatal`. -/
def levelFatal : Level := 12

/-- slogx `LevelPanic`. -/
def levelPanic : Level := 16

/-- Stand-in for the textual form of an unknown level (Go renders it with
`fmt.Sprintf` on the `Leveler`). -/
def levelText (l : Level) : String := "level(" ++ toString l ++ ")"

/-- `formatSlackMessageLevelDefault` from `formatter.go`: formats the level
using an emoji prefix, falling back to the raw textual form. -/
def formatSlackMessageLevelDefault (level : Level) : Except Err String :=
  if level = levelTrace then .ok ":eyes: trace"
  else if level = levelDebug then .ok ":ladybug: debug"
  else if level = levelInfo then .ok ":information_source: info"
  else if level = levelNotice then .ok ":grey_exclamation: notice"
  else if level = levelWarn then .ok ":warning: warn"
  else if level = levelError then .ok ":no_entry: error"
  else if level = levelFatal then .ok ":rotating_light: fatal"
  else if level = levelPanic then .ok ":sos: panic"
  else .ok (levelText level)

/-- Modelled from the spec: the external default level renderer
(`formatter.FormatLevelValueDefault`), used when no level hook is configured;
its text is abstracted and it is total. -/
def formatLevelValueDefault (level : Level) : Except Err String :=
  .ok (levelText level)

/-- Stand-in for the default local-time rendering of a timestamp. -/
def localTimeText (t : STime) : String := "time(" ++ toString t ++ ")"

/-- Modelled from the spec: the external default timestamp renderer
(`formatter.FormatTimeValueDefault`); its text is abstracted and it is
total. -/
def formatTimeValueDefault (_level : Level) (t : STime) : Except Err String :=
  .ok (localTimeText t)

/-- Stand-in for the canonical "file:line" rendering of a call site. -/
def sourceText (pc : Nat) : String := "pc(" ++ toString pc ++ ")"

/-- Modelled from the spec: the external default call-site renderer
(`formatter.FormatSourceValueDefault`); its text is abstracted and it is
total. -/
def formatSourceValueDefault (_level : Level) (pc : Nat) : Except Err String :=
  .ok (sourceText pc)

/-- `DefaultSlackMessageFormatterOptions` from `formatter.go`. -/
def defaultSlackMessageFormatterOptions : SlackMessageFormatterOptions where
  applicationIconURL := ""
  applicationName := ""
  attrFormatter := none
  ignoreAttrs := []
  includeAttrs := true
  includeSource := false
  levelFormatter := some formatSlackMessageLevelDefault
  messageFormatter := none
  sortAttrsOpt := true
  sourcePfx := slackMessageFormatterSourcePfx
  sourceFormatter := some formatSourceValueDefault
  specificAttrFormatter := []
  timePfx := slackMessageFormatterTimePfx
  timeFormatter := some (fun _ t => .ok (localTimeText t))

/-- The formatter state (`slackMessageFormatter`): the compiled ignore
patterns plus the (defaulted) options. -/
structure slackMessageFormatter where
  ignoredAttrPatterns : List Pattern
  options : SlackMessageFormatterOptions

/-- The pattern-compilation loop of `NewSlackMessageFormatter`: compile each
configured ignore pattern in order, appending it when compilation succeeds and
silently skipping it otherwise.  `compile` models the external
`regexp.Compile` (`none` = compilation error). -/
def compilePatterns (compile : String → Option Pattern) : List String → List Pattern
  | [] => []
  | p :: rest =>
    match compile p with
    | some regex => regex :: compilePatterns compile rest
    | none => compilePatterns compile rest

/-- The time-prefix defaulting step of `NewSlackMessageFormatter`. -/
def applyTimePfxDefault (opts : SlackMessageFormatterOptions) : SlackMessageFormatterOptions :=
  if opts.timePfx = "" then { opts with timePfx := slackMessageFormatterTimePfx } else opts

/-- The source-prefix defaulting step of `NewSlackMessageFormatter`. -/
def applySourcePfxDefault (opts : SlackMessageFormatterOptions) : SlackMessageFormatterOptions :=
  if opts.includeSource ∧ opts.sourcePfx = "" then
    { opts with sourcePfx := slackMessageFormatterSourcePfx }
  else opts

/-- `NewSlackMessageFormatter` from `formatter.go`: applies the prefix
defaults, then builds the formatter, compiling the ignore patterns with
`compilePatterns`.  Construction is total: it always returns a formatter. -/
def newSlackMessageFormatter (compile : String → Option Pattern)
    (opts : SlackMessageFormatterOptions) : slackMessageFormatter :=
  { ignoredAttrPatterns :=
      compilePatterns compile (applySourcePfxDefault (applyTimePfxDefault opts)).ignoreAttrs
    options := applySourcePfxDefault (applyTimePfxDefault opts) }

/-- `DefaultSlackMessageFormatter` from `formatter.go`: the default options
have no ignore patterns, so the compile oracle is irrelevant. -/
def defaultSlackMessageFormatter : slackMessageFormatter :=
  newSlackMessageFormatter (fun _ => none) defaultSlackMessageFormatterOptions

/-- Whether a flattened attribute key matches one of the compiled ignore
patterns (the loop at the top of `attrToElement`). -/
def matchesIgnore (f : slackMessageFormatter) (key : String) : Bool :=
  f.ignoredAttrPatterns.any (fun p => p key)

/-- Split a flattened key at its final `.` separator into the group-path part
and the leaf attribute key (`strings.LastIndex` logic in `attrToElement`);
keys without a separator have an empty group part. -/
def lastDotSplit (s : String) : String × String :=
  let parts := s.splitOn "."
  if parts.length ≤ 1 then ("", s)
  else (String.intercalate "." parts.dropLast, parts.getLastD "")

/-- The fixed markup every rendered attribute is wrapped in. -/
def kvText (k v : String) : String := "*" ++ k ++ "*: `" ++ v ++ "`"

/-- Stand-in for Go's `Duration.String()` canonical rendering. -/
def durationText (d : Int) : String := toString d ++ "ns"

/-- Stand-in for the UTC RFC-3339 rendering of a timestamp value. -/
def timeUTCText (t : Int) : String := "utc(" ++ toString t ++ ")"

/-- Stand-in for Go's `%+v` debug rendering of a group value (defensive branch
only: groups do not survive flattening, so this is reachable only when a hook
returns a group-kind value). -/
def groupDebugText (g : SAttrs) : String := "group<" ++ toString g.size ++ ">"

/-- The kind switch at the end of `attrToElement`: render a key/value pair as
a markdown text element, or fail if the value's text-marshaling fails. -/
def renderElement (k : String) (v : SValue) : Option MixedElement × Option Err :=
  match v with
  | .bool b => (some (.text (kvText k (toString b))), none)
  | .str s => (some (.text (kvText k s)), none)
  | .duration d => (some (.text (kvText k (durationText d))), none)
  | .time t => (some (.text (kvText k (timeUTCText t))), none)
  | .float s => (some (.text (kvText k s)), none)
  | .int i => (some (.text (kvText k (toString i))), none)
  | .uint n => (some (.text (kvText k (toString n))), none)
  | .group g => (some (.text (kvText k (groupDebugText g))), none)
  | .any (some (.err e)) _ => (none, some e)
  | .any (some (.ok s)) _ => (some (.text (kvText k s)), none)
  | .any none dbg => (some (.text (kvText k dbg)), none)

/-- Apply one attribute renderer hook to a (group-path, leaf-key) split and a
resolved value, then render the transformed key/value; hook failure yields the
error and no element. -/
def applyAttrHook (fn : AttrFn) (level : Level) (split : String × String)
    (attrValue : SValue) : Option MixedElement × Option Err :=
  match fn level split.1 split.2 attrValue with
  | .error e => (none, some e)
  | .ok (k, v) => renderElement k v

/-- `attrToElement` from `formatter.go`: drop the attribute when its key
matches an ignore pattern (returning neither element nor error); otherwise
split the key at the last separator, apply the specific-key hook if present
(falling back to the generic hook), and render the resulting key/value.  In Go
the specific-hook map lookup also checks the stored function for nil; a nil
entry is modelled as an absent entry. -/
def attrToElement (f : slackMessageFormatter) (level : Level) (attrKey : String)
    (attrValue : SValue) : Option MixedElement × Option Err :=
  if matchesIgnore f attrKey then (none, none)
  else
    match f.options.specificAttrFormatter.lookup attrKey with
    | some fn => applyAttrHook fn level (lastDotSplit attrKey) attrValue
    | none =>
      match f.options.attrFormatter with
      | some fn => applyAttrHook fn level (lastDotSplit attrKey) attrValue
      | none => renderElement attrKey attrValue

/-- The level-rendering step of `FormatRecord`: the configured hook, or the
external default when none is configured. -/
def levelResult (f : slackMessageFormatter) (level : Level) : Except Err String :=
  match f.options.levelFormatter with
  | some fn => fn level
  | none => formatLevelValueDefault level

/-- The timestamp-rendering step of `FormatRecord`. -/
def timeResult (f : slackMessageFormatter) (level : Level) (ts : STime) : Except Err String :=
  match f.options.timeFormatter with
  | some fn => fn level ts
  | none => formatTimeValueDefault level ts

/-- The call-site-rendering step of `FormatRecord`. -/
def sourceResult (f : slackMessageFormatter) (level : Level) (pc : Nat) : Except Err String :=
  match f.options.sourceFormatter with
  | some fn => fn level pc
  | none => formatSourceValueDefault level pc

/-- The combined time/source text of the second context block: the time-prefix
plus rendered time, with the source prefix and rendered call site appended on
a new line when source inclusion is enabled. -/
def timeSourceText (f : slackMessageFormatter) (level : Level) (ts : STime)
    (pc : Nat) : Except Err String :=
  match timeResult f level ts with
  | .error e => .error e
  | .ok tStr =>
    if f.options.includeSource then
      match sourceResult f level pc with
      | .error e => .error e
      | .ok sStr =>
        .ok (f.options.timePfx ++ tStr ++ "\n" ++ f.options.sourcePfx ++ sStr)
    else .ok (f.options.timePfx ++ tStr)

/-- The elements of the application/level context block: optional icon,
optional application name, then the rendered level. -/
def appLevelElements (f : slackMessageFormatter) (lvlStr : String) : List MixedElement :=
  (if f.options.applicationIconURL ≠ "" then
    [MixedElement.image f.options.applicationIconURL f.options.applicationName]
   else []) ++
  (if f.options.applicationName ≠ "" then [MixedElement.text f.options.applicationName]
   else []) ++
  [MixedElement.text lvlStr]

/-- The five fixed blocks every successfully formatted message starts with:
leading divider, application/level context, time/source context, divider, and
the message body section. -/
def fixedBlocks (f : slackMessageFormatter) (lvlStr tsStr msg : String) : List Block :=
  [Block.divider, Block.context (appLevelElements f lvlStr),
   Block.context [MixedElement.text tsStr], Block.divider, Block.sectionBlock msg]

/-- The attribute loop of `FormatRecord`: for each flattened attribute, drop
it when filtered, abort on the first renderer error, and otherwise append one
context block. -/
def attrLoop (f : slackMessageFormatter) (level : Level) :
    List SAttr → List Block → Except Err (List Block)
  | [], acc => .ok acc
  | fa :: rest, acc =>
    match attrToElement f level fa.1 fa.2 with
    | (_, some e) => .error e
    | (some el, none) => attrLoop f level rest (acc ++ [Block.context [el]])
    | (none, none) => attrLoop f level rest acc

/-- The attribute sequence the formatter actually walks: the input attributes,
sorted when sorting is enabled, then flattened. -/
def pipelineAttrs (f : slackMessageFormatter) (attrs : List SAttr) : List SAttr :=
  flattenAttrs (if f.options.sortAttrsOpt then sortAttrs attrs else attrs)

/-- The flattened attributes that survive ignore-pattern filtering. -/
def survivingAttrs (f : slackMessageFormatter) (attrs : List SAttr) : List SAttr :=
  (pipelineAttrs f attrs).filter (fun fa => !(matchesIgnore f fa.1))

/-- `FormatRecord` from `formatter.go`: build the five fixed blocks, then —
when attribute inclusion is enabled — one context block per surviving
attribute; any renderer failure aborts with `(none, the error)`. -/
def formatRecord (f : slackMessageFormatter) (ts : STime) (level : Level) (pc : Nat)
    (msg : String) (attrs : List SAttr) : Option WebhookMessage × Option Err :=
  match levelResult f level with
  | .error e => (none, some e)
  | .ok lvlStr =>
    match timeSourceText f level ts pc with
    | .error e => (none, some e)
    | .ok tsStr =>
      let blocks := fixedBlocks f lvlStr tsStr msg
      if f.options.includeAttrs then
        match attrLoop f level (pipelineAttrs f attrs) blocks with
        | .error e => (none, some e)
        | .ok bs => (some ⟨bs⟩, none)
      else (some ⟨blocks⟩, none)

/-- Modelled from the spec: an opaque HTTP transport client; its behavior is
supplied to the handler functions as a `PostFn` oracle. -/
structure HTTPClient where
  clientId : Nat
deriving DecidableEq

/-- The default HTTP client (`http.DefaultClient`). -/
def defaultHTTPClient : HTTPClient := ⟨0⟩

/-- Modelled from the spec: the external webhook-posting transport
(`slack.PostWebhookCustomHTTP`), treated as an oracle from endpoint URL,
client and message to an optional delivery error. -/
abbrev PostFn := String → Option HTTPClient → Option WebhookMessage → Option Err

/-- Options for the Slack handler (`SlackHandlerOptions`); nilable Go fields
are `Option`s filled in by the constructor. -/
structure SlackHandlerOptions where
  enableAsync : Bool
  httpClient : Option HTTPClient
  level : Option Level
  recordFormatter : Option slackMessageFormatter
  webhookURL : String

/-- A log record (`slog.Record`): timestamp, level, call-site program counter,
message text and per-call attributes. -/
structure SRecord where
  time : STime
  level : Level
  pc : Nat
  message : String
  attrs : List SAttr

/-- Modelled from the spec: a handle to one background dispatch
(`async.Future`); it stores the dispatch's eventual result, which `await`
yields. -/
structure Future where
  result : Option Err

/-- Await a future's completion, yielding the dispatch result. -/
def Future.await (f : Future) : Option Err := f.result

/-- The handler state (`slackHandler`).  Go slices of futures may in principle
hold nil entries, hence `Option Future`; the constructor and `Handle` only
ever store present futures. -/
structure slackHandler where
  activeGroup : String
  attrs : List SAttr
  futures : List (Option Future)
  groups : List String
  options : SlackHandlerOptions

/-- `NewSlackHandler` from `handler.go`: reject an empty webhook URL with a
configuration error and no handler; otherwise default the client and level and
return the fresh handler state. -/
def newSlackHandler (opts : SlackHandlerOptions) : Option slackHandler × Option Err :=
  if opts.webhookURL = "" then
    (none, some "webhook URL is required and cannot be empty")
  else
    (some { activeGroup := "", attrs := [], futures := [], groups := []
            options := { opts with
              httpClient := some (opts.httpClient.getD defaultHTTPClient)
              level := some (opts.level.getD levelInfo) } },
     none)

/-- `WithAttrs` from `handler.go`: copy the handler state (the copy's
`activeGroup` starts at the zero value `""`); with no open group, append the
new attributes; with an open group, append them wrapped in a single group
named by the active group and keep the active group. -/
def withAttrs (h : slackHandler) (attrs : List SAttr) : slackHandler :=
  if h.activeGroup = "" then
    { activeGroup := "", attrs := h.attrs ++ attrs, futures := h.futures,
      groups := h.groups, options := h.options }
  else
    { activeGroup := h.activeGroup
      attrs := h.attrs ++ [(h.activeGroup, SValue.group (SAttrs.ofList attrs))]
      futures := h.futures, groups := h.groups, options := h.options }

/-- `WithGroup` from `handler.go`: copy the handler state (the copy's
`activeGroup` starts at the zero value `""`); a non-empty name is pushed onto
the group list and becomes the active group. -/
def withGroup (h : slackHandler) (name : String) : slackHandler :=
  if name ≠ "" then
    { activeGroup := name, attrs := h.attrs, futures := h.futures,
      groups := h.groups ++ [name], options := h.options }
  else
    { activeGroup := "", attrs := h.attrs, futures := h.futures,
      groups := h.groups, options := h.options }

/-- Open a chain of groups on a handler, oldest first. -/
def openGroups (h : slackHandler) (gs : List String) : slackHandler :=
  gs.foldl withGroup h

/-- Modelled from the spec: the external consolidation helper
(`slogx.ConsolidateAttrs`): "merges inherited attributes (nested under
activeGroup if one is open) with the record's own attributes, appended
after."  No claim depends on its details. -/
def consolidateAttrs (attrs : List SAttr) (activeGroup : String) (r : SRecord) : List SAttr :=
  (if activeGroup = "" then attrs else [(activeGroup, SValue.group (SAttrs.ofList attrs))]) ++
    r.attrs

/-- The formatter a dispatch uses: the configured one, or the package default
when none is configured. -/
def formatterOf (h : slackHandler) : slackMessageFormatter :=
  match h.options.recordFormatter with
  | some f => f
  | none => defaultSlackMessageFormatter

/-- The formatting step of one dispatch: consolidate the handler's and the
record's attributes and format them. -/
def dispatchFormat (h : slackHandler) (r : SRecord) : Option WebhookMessage × Option Err :=
  formatRecord (formatterOf h) r.time r.level r.pc r.message
    (consolidateAttrs h.attrs h.activeGroup r)

/-- `handle` (lowercase) from `handler.go`: format the record, return the
formatting error if any, and otherwise post the message to the webhook,
returning the delivery outcome. -/
def handle (post : PostFn) (h : slackHandler) (r : SRecord) : Option Err :=
  match dispatchFormat h r with
  | (_, some e) => some e
  | (m, none) => post h.options.webhookURL h.options.httpClient m

/-- `Handle` from `handler.go`: with async disabled, dispatch synchronously
and return its result; with async enabled, run the dispatch as a background
future, append it to the outstanding-work list and return no error. -/
def Handle (post : PostFn) (h : slackHandler) (r : SRecord) : slackHandler × Option Err :=
  if !h.options.enableAsync then (h, handle post h r)
  else ({ h with futures := h.futures ++ [some ⟨handle post h r⟩] }, none)

/-- The await loop of `Shutdown`: walk the future list in order, awaiting each
non-nil entry; the returned list is the trace of awaited results. -/
def shutdownLoop : List (Option Future) → List (Option Err)
  | [] => []
  | none :: rest => shutdownLoop rest
  | some f :: rest => Future.await f :: shutdownLoop rest

/-- `Shutdown` from `handler.go`: await every outstanding future (the first
component is the await trace) and return nil; `continueOnError` is unused. -/
def Shutdown (h : slackHandler) (_continueOnError : Bool) : List (Option Err) × Option Err :=
  (shutdownLoop h.futures, none)

/-- Handler states reachable through the public constructor and operations. -/
inductive Reachable : slackHandler → Prop where
  | new (opts : SlackHandlerOptions) (h : slackHandler)
      (heq : newSlackHandler opts = (some h, none)) : Reachable h
  | handleStep (post : PostFn) (h : slackHandler) (r : SRecord)
      (hr : Reachable h) : Reachable (Handle post h r).1
  | attrsStep (h : slackHandler) (attrs : List SAttr) (hr : Reachable h) :
      Reachable (withAttrs h attrs)
  | groupStep (h : slackHandler) (name : String) (hr : Reachable h) :
      Reachable (withGroup h name)

/-!
Go slice semantics for the handler's attribute list.  `WithAttrs` copies the
parent's slice header and then appends to it; Go's `append` writes into the
shared backing array whenever spare capacity exists and only allocates a fresh
array otherwise.  This refined model makes that aliasing observable; the
value-level `withAttrs` above is the view each single handler has of its own
slice.
-/

/-- A Go slice header over a store of backing arrays: an array index and the
slice length.  (All slices here start at offset 0, as the handler's do.) -/
structure GoSlice where
  arr : Nat
  len : Nat
deriving DecidableEq

/-- The heap of backing arrays; each array's list length is its capacity, and
entries beyond a slice's length are junk retained from earlier writes. -/
abbrev GoStore := List (List SAttr)

/-- Go's `append(s, xs...)`: write in place into the backing array when the
capacity suffices (mutating it for every aliasing slice), otherwise allocate a
fresh backing array.  The capacity chosen on reallocation is a runtime
heuristic; what matters here is only that in-place appends happen whenever
spare capacity exists. -/
def goAppend (store : GoStore) (s : GoSlice) (xs : List SAttr) : GoStore × GoSlice :=
  let backing := store.getD s.arr []
  if s.len + xs.length ≤ backing.length then
    (store.set s.arr (backing.take s.len ++ xs ++ backing.drop (s.len + xs.length)),
     ⟨s.arr, s.len + xs.length⟩)
  else
    (store ++ [backing.take s.len ++ xs], ⟨store.length, s.len + xs.length⟩)

/-- The observable contents of a slice: the first `len` entries of its backing
array. -/
def sliceView (store : GoStore) (s : GoSlice) : List SAttr :=
  (store.getD s.arr []).take s.len

/-- The slice-level portion of a handler's state: the active group and the
inherited-attribute slice header. -/
structure GoHandlerState where
  activeGroup : String
  attrsSlice : GoSlice
deriving DecidableEq

/-- `WithAttrs` at the slice level: copy the handler state (slice header
included) and append the new attributes — wrapped in a group when a group is
open — to the copied header, exactly as
`newHandler.attrs = h.attrs; append(newHandler.attrs, ...)` does in Go. -/
def withAttrsGo (store : GoStore) (h : GoHandlerState) (attrs : List SAttr) :
    GoStore × GoHandlerState :=
  let toAppend :=
    if h.activeGroup = "" then attrs
    else [(h.activeGroup, SValue.group (SAttrs.ofList attrs))]
  let r := goAppend store h.attrsSlice toAppend
  (r.1, { activeGroup := h.activeGroup, attrsSlice := r.2 })

/-!  Supporting lemmas about the formatter pipeline. -/

/-- The context blocks the attribute loop emits for a list of flattened
attributes, assuming no renderer fails: one block per attribute that is not
filtered out. -/
def renderedAttrBlocks (f : slackMessageFormatter) (level : Level) : List SAttr → List Block
  | [] => []
  | fa :: rest =>
    (match attrToElement f level fa.1 fa.2 with
     | (some el, none) => [Block.context [el]]
     | _ => []) ++ renderedAttrBlocks f level rest

theorem renderElement_ne_none_none (k : String) (v : SValue) :
    renderElement k v ≠ (none, none) := by
  cases v with
  | bool b => simp [renderElement]
  | str s => simp [renderElement]
  | int i => simp [renderElement]
  | uint n => simp [renderElement]
  | float t => simp [renderElement]
  | duration d => simp [renderElement]
  | time t => simp [renderElement]
  | group g => simp [renderElement]
  | any m dbg =>
    cases m with
    | none => simp [renderElement]
    | some o =>
      cases o with
      | ok s => simp [renderElement]
      | err e => simp [renderElement]

theorem attrToElement_ignored (f : slackMessageFormatter) (level : Level) (k : String)
    (v : SValue) (hig : matchesIgnore f k = true) :
    attrToElement f level k v = (none, none) := by
  simp [attrToElement, hig]

theorem applyAttrHook_ne_none_none (fn : AttrFn) (level : Level) (split : String × String)
    (v : SValue) : applyAttrHook fn level split v ≠ (none, none) := by
  unfold applyAttrHook
  cases hfn : fn level split.1 split.2 v with
  | error e => simp
  | ok kv =>
    obtain ⟨k1, v1⟩ := kv
    exact renderElement_ne_none_none k1 v1

theorem attrToElement_not_ignored (f : slackMessageFormatter) (level : Level) (k : String)
    (v : SValue) (hig : matchesIgnore f k = false) :
    attrToElement f level k v ≠ (none, none) := by
  unfold attrToElement
  rw [hig]
  simp only [Bool.false_eq_true, if_false]
  cases hlk : f.options.specificAttrFormatter.lookup k with
  | some fn => exact applyAttrHook_ne_none_none fn level (lastDotSplit k) v
  | none =>
    cases haf : f.options.attrFormatter with
    | some fn => exact applyAttrHook_ne_none_none fn level (lastDotSplit k) v
    | none => exact renderElement_ne_none_none k v

theorem attrLoop_ok_length (f : slackMessageFormatter) (level : Level) :
    ∀ (l : List SAttr) (acc bs : List Block),
      attrLoop f level l acc = .ok bs →
      bs.length = acc.length + (l.filter (fun fa => !(matchesIgnore f fa.1))).length := by
  intro l
  induction l with
  | nil =>
    intro acc bs h
    simp [attrLoop] at h
    simp [← h]
  | cons fa rest ih =>
    intro acc bs h
    by_cases hig : matchesIgnore f fa.1 = true
    · rw [attrLoop, attrToElement_ignored f level fa.1 fa.2 hig] at h
      have := ih acc bs h
      simpa [List.filter_cons, hig] using this
    · rw [Bool.not_eq_true] at hig
      cases hae : attrToElement f level fa.1 fa.2 with
      | mk oel oerr =>
        cases oerr with
        | some e => rw [attrLoop, hae] at h; cases oel <;> simp at h
        | none =>
          cases oel with
          | none => exact absurd hae (attrToElement_not_ignored f level fa.1 fa.2 hig)
          | some el =>
            rw [attrLoop, hae] at h
            have := ih (acc ++ [Block.context [el]]) bs h
            simp only [List.length_append, List.length_cons, List.length_nil] at this
            simp [List.filter_cons, hig, this]
            omega

theorem attrLoop_ok_blocks (f : slackMessageFormatter) (level : Level) :
    ∀ (l : List SAttr) (acc bs : List Block),
      attrLoop f level l acc = .ok bs →
      bs = acc ++ renderedAttrBlocks f level l := by
  intro l
  induction l with
  | nil =>
    intro acc bs h
    simp [attrLoop] at h
    simp [← h, renderedAttrBlocks]
  | cons fa rest ih =>
    intro acc bs h
    cases hae : attrToElement f level fa.1 fa.2 with
    | mk oel oerr =>
      cases oerr with
      | some e => rw [attrLoop, hae] at h; cases oel <;> simp at h
      | none =>
        cases oel with
        | none =>
          rw [attrLoop, hae] at h
          have := ih acc bs h
          simp [this, renderedAttrBlocks, hae]
        | some el =>
          rw [attrLoop, hae] at h
          have := ih (acc ++ [Block.context [el]]) bs h
          simp [this, renderedAttrBlocks, hae]

theorem renderedAttrBlocks_filter (f : slackMessageFormatter) (level : Level)
    (l : List SAttr) :
    renderedAttrBlocks f level (l.filter (fun fa => !(matchesIgnore f fa.1)))
      = renderedAttrBlocks f level l := by
  induction l with
  | nil => rfl
  | cons fa rest ih =>
    by_cases hig : matchesIgnore f fa.1 = true
    · simp [List.filter_cons, hig, ih, renderedAttrBlocks,
        attrToElement_ignored f level fa.1 fa.2 hig]
    · rw [Bool.not_eq_true] at hig
      simp [List.filter_cons, hig, renderedAttrBlocks, ih]

theorem compilePatterns_eq_filterMap (compile : String → Option Pattern) :
    ∀ l : List String, compilePatterns compile l = l.filterMap compile := by
  intro l
  induction l with
  | nil => rfl
  | cons p rest ih =>
    cases hc : compile p <;> simp [compilePatterns, hc, List.filterMap_cons, ih]

/-!  Claim C1: block count of a successful `FormatRecord` call. -/

/-- Claim C1: for every input (timestamp, level, call-site, message, attrs), a
successful `FormatRecord` call returns a message whose block count equals
exactly 5 (leading divider + application/level context block + time/source
context block + divider + message body section) plus, when attribute inclusion
is enabled, one context block per attribute that survives flattening and
ignore-pattern filtering (0 extra blocks when attribute inclusion is
disabled). -/
theorem formatRecord_block_count (f : slackMessageFormatter) (ts : STime) (level : Level)
    (pc : Nat) (msg : String) (attrs : List SAttr) (m : WebhookMessage)
    (h : formatRecord f ts level pc msg attrs = (some m, none)) :
    m.blocks.length =
      5 + (if f.options.includeAttrs then (survivingAttrs f attrs).length else 0) := by
  unfold formatRecord at h
  cases hl : levelResult f level with
  | error e => rw [hl] at h; simp at h
  | ok lvlStr =>
    rw [hl] at h
    cases ht : timeSourceText f level ts pc with
    | error e => rw [ht] at h; simp at h
    | ok tsStr =>
      rw [ht] at h
      by_cases hin : f.options.includeAttrs = true
      · simp only [hin, if_true] at h
        cases ha : attrLoop f level (pipelineAttrs f attrs) (fixedBlocks f lvlStr tsStr msg) with
        | error e => rw [ha] at h; simp at h
        | ok bs =>
          rw [ha] at h
          simp only [Prod.mk.injEq, Option.some.injEq] at h
          obtain ⟨hm, -⟩ := h
          have hlen := attrLoop_ok_length f level _ _ _ ha
          have h5 : (fixedBlocks f lvlStr tsStr msg).length = 5 := rfl
          rw [← hm]
          show bs.length = _
          rw [hlen, h5]
          simp [hin, survivingAttrs]
      · rw [Bool.not_eq_true] at hin
        simp only [hin, Bool.false_eq_true, if_false] at h
        simp only [Prod.mk.injEq, Option.some.injEq] at h
        obtain ⟨hm, -⟩ := h
        rw [← hm]
        simp [hin, fixedBlocks]

/-- A concrete formatter for the formatter witnesses: a compiled pattern
dropping the key `secret`, constant level and time hooks, no source. -/
def wFmt : slackMessageFormatter :=
  newSlackMessageFormatter
    (fun s => if s = "secret" then some (fun k => k == "secret") else none)
    { applicationIconURL := ""
      applicationName := ""
      attrFormatter := none
      ignoreAttrs := ["secret"]
      includeAttrs := true
      includeSource := false
      levelFormatter := some (fun _ => .ok "LVL")
      messageFormatter := none
      sortAttrsOpt := false
      sourcePfx := ""
      sourceFormatter := none
      specificAttrFormatter := []
      timePfx := "T:"
      timeFormatter := some (fun _ _ => .ok "TIME") }

/-- Concrete witness attributes: a kept scalar, an ignored scalar, and a group
with one nested scalar. -/
def wAttrs : List SAttr :=
  [("a", .str "1"), ("secret", .str "s"), ("g", .group (SAttrs.ofList [("b", .int 2)]))]

/-- The message the witness formatter produces for the witness inputs. -/
def wMsg : WebhookMessage :=
  (formatRecord wFmt 0 levelInfo 0 "hello" wAttrs).1.getD ⟨[]⟩

theorem formatRecord_block_count_witness :
    formatRecord wFmt 0 levelInfo 0 "hello" wAttrs = (some wMsg, none) ∧
    wMsg.blocks.length =
      5 + (if wFmt.options.includeAttrs then (survivingAttrs wFmt wAttrs).length else 0) :=
  ⟨by decide, formatRecord_block_count wFmt 0 levelInfo 0 "hello" wAttrs wMsg (by decide)⟩

/-!  Claim C5: ignored attributes never reach the output. -/

/-- Claim C5: for every attribute whose flattened dotted key matches at least
one successfully compiled ignore pattern, no block for that attribute appears
in the `FormatRecord` output, regardless of whether attribute sorting is
enabled and independent of the other configured options: the blocks after the
five fixed ones are exactly those rendered from the surviving (non-matching)
attributes, and a matching attribute is not among the survivors. -/
theorem formatRecord_ignored_attr_absent (f : slackMessageFormatter) (ts : STime)
    (level : Level) (pc : Nat) (msg : String) (attrs : List SAttr) (m : WebhookMessage)
    (fa : SAttr) (h : formatRecord f ts level pc msg attrs = (some m, none))
    (hmem : fa ∈ pipelineAttrs f attrs) (hig : matchesIgnore f fa.1 = true) :
    m.blocks.drop 5 =
      renderedAttrBlocks f level
        (if f.options.includeAttrs then survivingAttrs f attrs else []) ∧
    fa ∉ survivingAttrs f attrs := by
  constructor
  · unfold formatRecord at h
    cases hl : levelResult f level with
    | error e => rw [hl] at h; simp at h
    | ok lvlStr =>
      rw [hl] at h
      cases ht : timeSourceText f level ts pc with
      | error e => rw [ht] at h; simp at h
      | ok tsStr =>
        rw [ht] at h
        by_cases hin : f.options.includeAttrs = true
        · simp only [hin, if_true] at h ⊢
          cases ha : attrLoop f level (pipelineAttrs f attrs) (fixedBlocks f lvlStr tsStr msg) with
          | error e => rw [ha] at h; simp at h
          | ok bs =>
            rw [ha] at h
            simp only [Prod.mk.injEq, Option.some.injEq] at h
            obtain ⟨hm, -⟩ := h
            have hbs := attrLoop_ok_blocks f level _ _ _ ha
            have hfix : (fixedBlocks f lvlStr tsStr msg).length = 5 := rfl
            rw [← hm]
            show bs.drop 5 = _
            rw [hbs, ← hfix, List.drop_left]
            exact (renderedAttrBlocks_filter f level (pipelineAttrs f attrs)).symm
        · rw [Bool.not_eq_true] at hin
          simp only [hin, Bool.false_eq_true, if_false] at h ⊢
          simp only [Prod.mk.injEq, Option.some.injEq] at h
          obtain ⟨hm, -⟩ := h
          rw [← hm]
          simp [fixedBlocks, renderedAttrBlocks]
  · intro hmem2
    have hp := (List.mem_filter.mp hmem2).2
    rw [hig] at hp
    simp at hp

theorem formatRecord_ignored_attr_absent_witness :
    wMsg.blocks.drop 5 =
      renderedAttrBlocks wFmt levelInfo
        (if wFmt.options.includeAttrs then survivingAttrs wFmt wAttrs else []) ∧
    (("secret", SValue.str "s") : SAttr) ∉ survivingAttrs wFmt wAttrs :=
  formatRecord_ignored_attr_absent wFmt 0 levelInfo 0 "hello" wAttrs wMsg
    ("secret", SValue.str "s") (by decide) (by decide) (by decide)

/-!  Claim C4: renderer-hook errors abort the whole formatting call. -/

/-- Claim C4: for every formatting call, if any configured renderer hook
(level, time, source, generic attribute, or specific-attribute formatter)
returns an error, `FormatRecord` returns that error together with no message
(nil), so a partially built message is never returned to the caller.  Each
conjunct covers one hook: a failing level hook, a failing time hook, a failing
source hook, a failing specific-attribute hook, a failing generic attribute
hook (the latter two making `attrToElement` fail), and a failing attribute
loop. -/
theorem formatRecord_hook_error_aborts (f : slackMessageFormatter) (ts : STime)
    (level : Level) (pc : Nat) (msg : String) (attrs : List SAttr) :
    (∀ e, levelResult f level = .error e →
        formatRecord f ts level pc msg attrs = (none, some e)) ∧
    (∀ s e, levelResult f level = .ok s → timeResult f level ts = .error e →
        formatRecord f ts level pc msg attrs = (none, some e)) ∧
    (∀ s t e, levelResult f level = .ok s → timeResult f level ts = .ok t →
        f.options.includeSource = true → sourceResult f level pc = .error e →
        formatRecord f ts level pc msg attrs = (none, some e)) ∧
    (∀ k v e fn, matchesIgnore f k = false →
        f.options.specificAttrFormatter.lookup k = some fn →
        fn level (lastDotSplit k).1 (lastDotSplit k).2 v = .error e →
        attrToElement f level k v = (none, some e)) ∧
    (∀ k v e fn, matchesIgnore f k = false →
        f.options.specificAttrFormatter.lookup k = none →
        f.options.attrFormatter = some fn →
        fn level (lastDotSplit k).1 (lastDotSplit k).2 v = .error e →
        attrToElement f level k v = (none, some e)) ∧
    (∀ s t e, levelResult f level = .ok s → timeSourceText f level ts pc = .ok t →
        f.options.includeAttrs = true →
        attrLoop f level (pipelineAttrs f attrs) (fixedBlocks f s t msg) = .error e →
        formatRecord f ts level pc msg attrs = (none, some e)) := by
  refine ⟨?_, ?_, ?_, ?_, ?_, ?_⟩
  · intro e he
    unfold formatRecord
    rw [he]
  · intro s e hs he
    have ht : timeSourceText f level ts pc = .error e := by
      unfold timeSourceText
      rw [he]
    unfold formatRecord
    rw [hs, ht]
  · intro s t e hs ht hinc hsrc
    have hts : timeSourceText f level ts pc = .error e := by
      unfold timeSourceText
      rw [ht]
      simp only [hinc, if_true]
      rw [hsrc]
    unfold formatRecord
    rw [hs, hts]
  · intro k v e fn hig hlk hfn
    unfold attrToElement
    rw [hig]
    simp only [Bool.false_eq_true, if_false]
    rw [hlk]
    show applyAttrHook fn level (lastDotSplit k) v = (none, some e)
    unfold applyAttrHook
    rw [hfn]
  · intro k v e fn hig hlk haf hfn
    unfold attrToElement
    rw [hig]
    simp only [Bool.false_eq_true, if_false]
    rw [hlk, haf]
    show applyAttrHook fn level (lastDotSplit k) v = (none, some e)
    unfold applyAttrHook
    rw [hfn]
  · intro s t e hs ht hin hloop
    unfold formatRecord
    rw [hs, ht]
    simp only [hin, if_true]
    rw [hloop]

/-- A formatter whose configured level hook always fails. -/
def wFmtErr : slackMessageFormatter :=
  { wFmt with options := { wFmt.options with levelFormatter := some (fun _ => .error "boom") } }

theorem formatRecord_hook_error_aborts_witness :
    formatRecord wFmtErr 0 levelInfo 0 "hello" wAttrs = (none, some "boom") :=
  (formatRecord_hook_error_aborts wFmtErr 0 levelInfo 0 "hello" wAttrs).1 "boom" rfl

/-!  Claim C9: invalid ignore patterns are skipped at construction. -/

/-- Claim C9: for every list of ignore patterns given at formatter
construction, any pattern that fails to compile as a regular expression is
skipped without aborting construction: the (always-created) formatter's
compiled pattern list is exactly the in-order successful compilations of the
configured patterns. -/
theorem newSlackMessageFormatter_skips_bad_patterns (compile : String → Option Pattern)
    (opts : SlackMessageFormatterOptions) :
    (newSlackMessageFormatter compile opts).ignoredAttrPatterns
      = opts.ignoreAttrs.filterMap compile := by
  have h1 : ∀ o : SlackMessageFormatterOptions, (applyTimePfxDefault o).ignoreAttrs = o.ignoreAttrs := by
    intro o
    unfold applyTimePfxDefault
    split <;> rfl
  have h2 : ∀ o : SlackMessageFormatterOptions,
      (applySourcePfxDefault o).ignoreAttrs = o.ignoreAttrs := by
    intro o
    unfold applySourcePfxDefault
    split <;> rfl
  show compilePatterns compile (applySourcePfxDefault (applyTimePfxDefault opts)).ignoreAttrs
    = opts.ignoreAttrs.filterMap compile
  rw [compilePatterns_eq_filterMap, h2, h1]

/-!  Supporting lemmas about the handler's group/attribute state. -/

theorem flattenWith_append (pre : String) (xs ys : List SAttr) :
    flattenWith pre (xs ++ ys) = flattenWith pre xs ++ flattenWith pre ys := by
  induction xs with
  | nil => simp [flattenWith]
  | cons a rest ih =>
    obtain ⟨k, v⟩ := a
    cases v <;> simp [flattenWith, ih, List.append_assoc]

theorem withGroup_attrs (h : slackHandler) (name : String) :
    (withGroup h name).attrs = h.attrs := by
  unfold withGroup
  split <;> rfl

theorem withGroup_activeGroup (h : slackHandler) (name : String) (hn : name ≠ "") :
    (withGroup h name).activeGroup = name := by
  unfold withGroup
  rw [if_pos hn]

theorem openGroups_attrs (gs : List String) : ∀ h : slackHandler,
    (openGroups h gs).attrs = h.attrs := by
  induction gs with
  | nil => intro h; rfl
  | cons g rest ih =>
    intro h
    show (openGroups (withGroup h g) rest).attrs = h.attrs
    rw [ih, withGroup_attrs]

/-- A fresh handler value used by the handler-side witnesses and
counterexamples (as constructed, synchronous, trivial options). -/
def cH0 : slackHandler :=
  { activeGroup := "", attrs := [], futures := [], groups := []
    options :=
      { enableAsync := false, httpClient := none, level := none,
        recordFormatter := none, webhookURL := "u" } }

/-!  Claim C2: how `WithAttrs` nests new attributes under open groups. -/

/-- Claim C2 counterexample: the claim says an attribute attached after
opening groups g1, g2 flattens to dotted key `g1.g2.k`; on the code it
flattens to `g2.k` (nested under the innermost group only), which differs. -/
theorem withAttrs_two_groups_counterexample :
    (flattenAttrs ((withAttrs (withGroup (withGroup cH0 "g1") "g2")
        [("k", SValue.str "v")]).attrs)).map Prod.fst = ["g2.k"] ∧
    ("g2.k" : String) ≠ "g1.g2.k" :=
  ⟨by decide, by decide⟩

/-- Claim C2 (amended): for every handler on which n ≥ 1 groups g1, ..., gn
have been opened via `WithGroup` (most recently opened last, all non-empty),
a non-group attribute with key k subsequently attached via `WithAttrs` is
nested one level under only the innermost group gn: after flattening its
dotted key is `gn.k` (so `g1.….gn.k` only in the n = 1 case). -/
theorem withAttrs_nests_under_innermost_only (h : slackHandler) (gs : List String)
    (gn k : String) (v : SValue) (hgn : gn ≠ "") (hv : v.isGroup = false) :
    flattenAttrs ((withAttrs (openGroups h (gs ++ [gn])) [(k, v)]).attrs)
      = flattenAttrs h.attrs ++ [(gn ++ "." ++ k, v)] := by
  have hsplit : openGroups h (gs ++ [gn]) = withGroup (openGroups h gs) gn := by
    unfold openGroups
    rw [List.foldl_append]
    rfl
  rw [hsplit]
  have hact : (withGroup (openGroups h gs) gn).activeGroup = gn :=
    withGroup_activeGroup _ _ hgn
  have hattrs : (withGroup (openGroups h gs) gn).attrs = h.attrs := by
    rw [withGroup_attrs, openGroups_attrs]
  have hwa : (withAttrs (withGroup (openGroups h gs) gn) [(k, v)]).attrs
      = h.attrs ++ [(gn, SValue.group (SAttrs.ofList [(k, v)]))] := by
    unfold withAttrs
    rw [hact, hattrs, if_neg hgn]
  rw [hwa]
  show flattenWith "" (h.attrs ++ [(gn, SValue.group (SAttrs.ofList [(k, v)]))]) = _
  rw [flattenWith_append]
  congr 1
  cases v <;> simp_all [flattenWith, flattenS, joinKey, SValue.isGroup, SAttrs.ofList]

theorem withAttrs_nests_under_innermost_only_witness :
    ("g2" : String) ≠ "" ∧ (SValue.str "v").isGroup = false ∧
    flattenAttrs ((withAttrs (openGroups cH0 (["g1"] ++ ["g2"]))
        [("k", SValue.str "v")]).attrs)
      = flattenAttrs cH0.attrs ++ [("g2" ++ "." ++ "k", SValue.str "v")] :=
  ⟨by decide, by decide,
   withAttrs_nests_under_innermost_only cH0 ["g1"] "g2" "k" (SValue.str "v")
     (by decide) (by decide)⟩

/-!  Claim C8: construction requires a non-empty webhook URL. -/

/-- Claim C8: constructing a handler with an empty webhook/endpoint URL fails:
`NewSlackHandler` returns a configuration error and no handler value (nil);
for every non-empty URL this error does not occur and a handler is
returned. -/
theorem newSlackHandler_url_required (opts : SlackHandlerOptions) :
    (opts.webhookURL = "" →
      newSlackHandler opts = (none, some "webhook URL is required and cannot be empty")) ∧
    (opts.webhookURL ≠ "" →
      (newSlackHandler opts).2 = none ∧ ∃ h, (newSlackHandler opts).1 = some h) := by
  constructor
  · intro he
    unfold newSlackHandler
    rw [if_pos he]
  · intro hne
    unfold newSlackHandler
    rw [if_neg hne]
    exact ⟨rfl, _, rfl⟩

/-- Handler options with an empty webhook URL. -/
def w8optsEmpty : SlackHandlerOptions :=
  { enableAsync := false, httpClient := none, level := none, recordFormatter := none,
    webhookURL := "" }

/-- Asynchronous handler options with a non-empty webhook URL, used by the
handler witnesses. -/
def w8opts : SlackHandlerOptions :=
  { enableAsync := true, httpClient := none, level := none, recordFormatter := none,
    webhookURL := "https://hooks.example.invalid/services/T000" }

theorem newSlackHandler_url_required_witness :
    newSlackHandler w8optsEmpty = (none, some "webhook URL is required and cannot be empty") ∧
    ((newSlackHandler w8opts).2 = none ∧ ∃ h, (newSlackHandler w8opts).1 = some h) :=
  ⟨(newSlackHandler_url_required w8optsEmpty).1 rfl,
   (newSlackHandler_url_required w8opts).2 (by decide)⟩

/-!  Claim C6: `Handle` in asynchronous versus synchronous mode. -/

/-- Claim C6: when asynchronous mode is enabled, `Handle` always returns nil
(no error) for every record, appending the background dispatch handle to the
outstanding-work set; when asynchronous mode is disabled, `Handle` returns
exactly the result of that record's dispatch — the formatting error if
formatting failed, the delivery outcome otherwise — with the state
unchanged. -/
theorem handle_async_nil_sync_dispatch_error (post : PostFn) (h : slackHandler)
    (r : SRecord) :
    (h.options.enableAsync = true →
      Handle post h r = ({ h with futures := h.futures ++ [some ⟨handle post h r⟩] }, none)) ∧
    (h.options.enableAsync = false → Handle post h r = (h, handle post h r)) ∧
    (handle post h r =
      match (dispatchFormat h r).2 with
      | some e => some e
      | none => post h.options.webhookURL h.options.httpClient (dispatchFormat h r).1) := by
  refine ⟨?_, ?_, ?_⟩
  · intro ha
    unfold Handle
    simp [ha]
  · intro ha
    unfold Handle
    simp [ha]
  · unfold handle
    cases hd : dispatchFormat h r with
    | mk m e => cases e <;> rfl

/-- A delivery oracle that always succeeds, for the handler witnesses. -/
def wPost : PostFn := fun _ _ _ => none

/-- The handler the witness constructor returns for `w8opts`. -/
def w6h : slackHandler := (newSlackHandler w8opts).1.getD cH0

/-- A concrete record for the handler witnesses. -/
def w6r : SRecord := { time := 0, level := 0, pc := 0, message := "m", attrs := [] }

theorem handle_async_nil_sync_dispatch_error_witness :
    Handle wPost w6h w6r
      = ({ w6h with futures := w6h.futures ++ [some ⟨handle wPost w6h w6r⟩] }, none) :=
  (handle_async_nil_sync_dispatch_error wPost w6h w6r).1 rfl

/-!  Claims C7 and C10: `Shutdown` semantics. -/

theorem shutdownLoop_filterMap : ∀ l : List (Option Future),
    shutdownLoop l = l.filterMap (fun f => f.map Future.await) := by
  intro l
  induction l with
  | nil => rfl
  | cons f rest ih =>
    cases f <;> simp [shutdownLoop, List.filterMap_cons, ih]

theorem shutdownLoop_length_allSome : ∀ l : List (Option Future),
    (∀ f ∈ l, f.isSome = true) → (shutdownLoop l).length = l.length := by
  intro l
  induction l with
  | nil => intro _; rfl
  | cons f rest ih =>
    intro hall
    cases f with
    | none => exact absurd (hall none (List.mem_cons_self _ _)) (by simp)
    | some f0 =>
      rw [shutdownLoop]
      simp only [List.length_cons]
      rw [ih (fun g hg => hall g (List.mem_cons_of_mem _ hg))]

theorem reachable_futures_isSome (h : slackHandler) (hr : Reachable h) :
    ∀ f ∈ h.futures, f.isSome = true := by
  induction hr with
  | new opts h0 heq =>
    unfold newSlackHandler at heq
    by_cases hu : opts.webhookURL = ""
    · rw [if_pos hu] at heq
      simp at heq
    · rw [if_neg hu] at heq
      simp only [Prod.mk.injEq, Option.some.injEq] at heq
      obtain ⟨hh, -⟩ := heq
      rw [← hh]
      intro f hf
      simp at hf
  | handleStep post h0 r hr0 ih =>
    unfold Handle
    by_cases ha : h0.options.enableAsync = true
    · simp only [ha, Bool.not_true, Bool.false_eq_true, if_false]
      intro f hf
      rw [List.mem_append] at hf
      rcases hf with hf | hf
      · exact ih f hf
      · simp only [List.mem_singleton] at hf
        rw [hf]
        rfl
    · rw [Bool.not_eq_true] at ha
      simp only [ha, Bool.not_false, if_true]
      exact ih
  | attrsStep h0 attrs hr0 ih =>
    unfold withAttrs
    split
    · exact ih
    · exact ih
  | groupStep h0 name hr0 ih =>
    unfold withGroup
    split
    · exact ih
    · exact ih

/-- Claim C7: for every reachable handler, `Shutdown` awaits every entry
currently in the outstanding-work set (the await trace covers all of them, in
order), and the `continueOnError` argument does not change the behavior. -/
theorem shutdown_awaits_all (h : slackHandler) (b b' : Bool) (hr : Reachable h) :
    (Shutdown h b).1 = h.futures.filterMap (fun f => f.map Future.await) ∧
    (Shutdown h b).1.length = h.futures.length ∧
    Shutdown h b = Shutdown h b' := by
  refine ⟨shutdownLoop_filterMap h.futures, ?_, rfl⟩
  exact shutdownLoop_length_allSome h.futures (reachable_futures_isSome h hr)

/-- The witness handler after one asynchronous `Handle` call. -/
def w7h : slackHandler := (Handle wPost w6h w6r).1

theorem shutdown_awaits_all_witness :
    (Shutdown w7h true).1 = w7h.futures.filterMap (fun f => f.map Future.await) ∧
    (Shutdown w7h true).1.length = w7h.futures.length ∧
    Shutdown w7h true = Shutdown w7h false :=
  shutdown_awaits_all w7h true false
    (Reachable.handleStep wPost w6h w6r (Reachable.new w8opts w6h rfl))

/-- Claim C10: `Shutdown` always returns nil — for every handler state and
every `continueOnError` value (and hence regardless of the outcomes stored in
the awaited futures), its error result is `none`, so in-flight delivery
failures are never surfaced through `Shutdown`. -/
theorem shutdown_returns_nil (h : slackHandler) (b : Bool) : (Shutdown h b).2 = none := rfl

/-!  Claim C3: the slice-aliasing defect of handler derivation. -/

/-- A one-array store: the parent's backing array has length (capacity) 4
while the parent slice holds 3 attributes, as Go's append growth produces
(for the gc runtime, appending a third element to a 2-capacity slice yields
capacity 4). -/
def c3store : GoStore :=
  [[("a", SValue.str ""), ("b", SValue.str ""), ("c", SValue.str ""), ("x", SValue.str "")]]

/-- The parent handler state for the aliasing scenario. -/
def c3parent : GoHandlerState := { activeGroup := "", attrsSlice := ⟨0, 3⟩ }

/-- The store and first child after deriving `parent.WithAttrs([d])`. -/
def c3step1 : GoStore × GoHandlerState := withAttrsGo c3store c3parent [("d", SValue.str "")]

/-- The store after additionally deriving `parent.WithAttrs([e])` from the
same parent. -/
def c3step2 : GoStore × GoHandlerState :=
  withAttrsGo c3step1.1 c3parent [("e", SValue.str "")]

/-- Claim C3 (code defect): deriving two children from the same parent via
`WithAttrs` is not free of interference.  After the first derivation the first
child observes attributes a, b, c, d; the second derivation appends into the
same backing array slot and the first child's observable attributes silently
become a, b, c, e, while the claim (and the spec's immutability statement)
says previously constructed handler instances never change. -/
theorem withAttrs_sibling_aliasing :
    (sliceView c3step1.1 (c3step1.2).attrsSlice).map Prod.fst = ["a", "b", "c", "d"] ∧
    (sliceView c3step2.1 (c3step1.2).attrsSlice).map Prod.fst = ["a", "b", "c", "e"] ∧
    (sliceView c3step2.1 c3parent.attrsSlice).map Prod.fst = ["a", "b", "c"] ∧
    (["a", "b", "c", "d"] : List String) ≠ ["a", "b", "c", "e"] :=
  ⟨by decide, by decide, by decide, by decide⟩

end SlogxSlack

